import Mathlib

set_option maxHeartbeats 2000000
set_option maxRecDepth 4000

/-!
Verification model of the Grok chat-completions adapter
(`src/agent/grok-patch.ts`, `src/agent/custom-cua.ts` and the unnamed
custom-call-model module).  The definitions below are shallow embeddings of
the message translator, the streaming response assembler and the
non-streaming decoder, translated directly from the TypeScript source.

Platform builtins (`JSON.parse`, `JSON.stringify`, `Buffer.toString("base64")`,
`new URL`) are modelled as executable Lean functions over an inductive `Json`
type.  Numbers are modelled as exact rationals (IEEE rounding of enormous
numerals is out of scope for every claim below); string escapes cover the
JSON escape set with `\uXXXX` mapped through `Char.ofNat` (surrogate-pair
combination is out of scope, no payload in this development uses it).
-/

/-- JSON values as produced by `JSON.parse`.  Objects keep their fields in
insertion order; the parser resolves duplicate keys exactly as `JSON.parse`
does (the later value wins, the first position is kept). -/
inductive Json where
  | null
  | bool (b : Bool)
  | num (q : ℚ)
  | str (s : String)
  | arr (elems : List Json)
  | obj (fields : List (String × Json))

mutual

/-- Structural decidable equality for `Json` (hand-written: `deriving` does
not handle the nested lists). -/
def Json.decEq : (a b : Json) → Decidable (a = b)
  | .null, .null => .isTrue rfl
  | .null, .bool _ => .isFalse nofun
  | .null, .num _ => .isFalse nofun
  | .null, .str _ => .isFalse nofun
  | .null, .arr _ => .isFalse nofun
  | .null, .obj _ => .isFalse nofun
  | .bool _, .null => .isFalse nofun
  | .bool a, .bool b =>
    if h : a = b then .isTrue (by rw [h]) else
      .isFalse (by intro hc; injection hc; contradiction)
  | .bool _, .num _ => .isFalse nofun
  | .bool _, .str _ => .isFalse nofun
  | .bool _, .arr _ => .isFalse nofun
  | .bool _, .obj _ => .isFalse nofun
  | .num _, .null => .isFalse nofun
  | .num _, .bool _ => .isFalse nofun
  | .num a, .num b =>
    if h : a = b then .isTrue (by rw [h]) else
      .isFalse (by intro hc; injection hc; contradiction)
  | .num _, .str _ => .isFalse nofun
  | .num _, .arr _ => .isFalse nofun
  | .num _, .obj _ => .isFalse nofun
  | .str _, .null => .isFalse nofun
  | .str _, .bool _ => .isFalse nofun
  | .str _, .num _ => .isFalse nofun
  | .str a, .str b =>
    if h : a = b then .isTrue (by rw [h]) else
      .isFalse (by intro hc; injection hc; contradiction)
  | .str _, .arr _ => .isFalse nofun
  | .str _, .obj _ => .isFalse nofun
  | .arr _, .null => .isFalse nofun
  | .arr _, .bool _ => .isFalse nofun
  | .arr _, .num _ => .isFalse nofun
  | .arr _, .str _ => .isFalse nofun
  | .arr a, .arr b =>
    match Json.decEqList a b with
    | .isTrue h => .isTrue (by rw [h])
    | .isFalse h => .isFalse (by intro hc; injection hc; contradiction)
  | .arr _, .obj _ => .isFalse nofun
  | .obj _, .null => .isFalse nofun
  | .obj _, .bool _ => .isFalse nofun
  | .obj _, .num _ => .isFalse nofun
  | .obj _, .str _ => .isFalse nofun
  | .obj _, .arr _ => .isFalse nofun
  | .obj a, .obj b =>
    match Json.decEqFields a b with
    | .isTrue h => .isTrue (by rw [h])
    | .isFalse h => .isFalse (by intro hc; injection hc; contradiction)

/-- Decidable equality for lists of `Json`. -/
def Json.decEqList : (a b : List Json) → Decidable (a = b)
  | [], [] => .isTrue rfl
  | [], _ :: _ => .isFalse nofun
  | _ :: _, [] => .isFalse nofun
  | x :: xs, y :: ys =>
    match Json.decEq x y with
    | .isTrue h1 =>
      match Json.decEqList xs ys with
      | .isTrue h2 => .isTrue (by rw [h1, h2])
      | .isFalse h2 => .isFalse (by intro hc; injection hc; contradiction)
    | .isFalse h1 => .isFalse (by intro hc; injection hc; contradiction)

/-- Decidable equality for JSON object field lists. -/
def Json.decEqFields : (a b : List (String × Json)) → Decidable (a = b)
  | [], [] => .isTrue rfl
  | [], _ :: _ => .isFalse nofun
  | _ :: _, [] => .isFalse nofun
  | (k1, v1) :: xs, (k2, v2) :: ys =>
    if hk : k1 = k2 then
      match Json.decEq v1 v2 with
      | .isTrue h1 =>
        match Json.decEqFields xs ys with
        | .isTrue h2 => .isTrue (by rw [hk, h1, h2])
        | .isFalse h2 => .isFalse (by intro hc; injection hc; contradiction)
      | .isFalse h1 =>
        .isFalse (by
          intro hc
          injection hc with hp hl
          injection hp with hpk hpv
          exact h1 hpv)
    else
      .isFalse (by
        intro hc
        injection hc with hp hl
        injection hp with hpk hpv
        exact hk hpk)

end

instance : DecidableEq Json := Json.decEq

instance {ε α : Type} [DecidableEq ε] [DecidableEq α] : DecidableEq (Except ε α) := by
  intro a b
  cases a <;> cases b
  case error.error e1 e2 =>
    exact if h : e1 = e2 then .isTrue (by rw [h]) else
      .isFalse (by intro hc; injection hc; contradiction)
  case ok.ok v1 v2 =>
    exact if h : v1 = v2 then .isTrue (by rw [h]) else
      .isFalse (by intro hc; injection hc; contradiction)
  case error.ok e v => exact .isFalse nofun
  case ok.error v e => exact .isFalse nofun

/-- Lookup of a field of a JSON object (first match; parsed objects never
hold duplicate keys). -/
def lookupField : List (String × Json) → String → Option Json
  | [], _ => none
  | (k', v) :: r, k => if k' = k then some v else lookupField r k

/-- Property access `j.k` on a parsed JSON value: a field of an object,
`undefined` (`none`) on everything else. -/
def getField (j : Json) (k : String) : Option Json :=
  match j with
  | .obj fs => lookupField fs k
  | _ => none

/-- Insert a key/value pair into an object's field list with JavaScript
semantics: an existing key is overwritten in place, a new key is appended. -/
def insertField : List (String × Json) → String × Json → List (String × Json)
  | [], kv => [kv]
  | (k', v') :: r, (k, v) =>
    if k' = k then (k, v) :: r else (k', v') :: insertField r (k, v)

/-- JavaScript truthiness of a JSON value (a number is falsy exactly when it
is zero, i.e. when its numerator is zero). -/
def jsTruthy : Json → Bool
  | .null => false
  | .bool b => b
  | .num q => q.num ≠ 0
  | .str s => s ≠ ""
  | .arr _ => true
  | .obj _ => true

/-- Truthiness of a possibly-absent (`undefined`) value. -/
def jsTruthyOpt : Option Json → Bool
  | none => false
  | some v => jsTruthy v

/-- The open-brace character, kept out of string literals. -/
def lbrace : Char := Char.ofNat 123

/-- The close-brace character, kept out of string literals. -/
def rbrace : Char := Char.ofNat 125

/-- JSON whitespace (space, tab, line feed, carriage return). -/
def isJsonWs (c : Char) : Bool :=
  c = ' ' || c = '\t' || c = '\n' || c = '\r'

/-- Drop leading JSON whitespace. -/
def skipWs : List Char → List Char
  | [] => []
  | c :: cs => if isJsonWs c then skipWs cs else c :: cs

/-- Value of a hexadecimal digit. -/
def hexVal (c : Char) : Option Nat :=
  if '0' ≤ c ∧ c ≤ '9' then some (c.toNat - '0'.toNat)
  else if 'a' ≤ c ∧ c ≤ 'f' then some (c.toNat - 'a'.toNat + 10)
  else if 'A' ≤ c ∧ c ≤ 'F' then some (c.toNat - 'A'.toNat + 10)
  else none

/-- Scan the body of a JSON string literal (the opening quote already
consumed); returns the decoded characters and the remainder after the
closing quote.  Control characters are rejected, as `JSON.parse` does. -/
def takeStr : List Char → Option (List Char × List Char)
  | [] => none
  | c :: cs =>
    if c = '"' then some ([], cs)
    else if c = '\\' then
      match cs with
      | [] => none
      | e :: cs2 =>
        let dec : Option Char :=
          if e = '"' then some '"'
          else if e = '\\' then some '\\'
          else if e = '/' then some '/'
          else if e = 'n' then some '\n'
          else if e = 't' then some '\t'
          else if e = 'r' then some '\r'
          else if e = 'b' then some (Char.ofNat 8)
          else if e = 'f' then some (Char.ofNat 12)
          else none
        match dec with
        | some d =>
          match takeStr cs2 with
          | some (out, rest) => some (d :: out, rest)
          | none => none
        | none =>
          if e = 'u' then
            match cs2 with
            | h1 :: h2 :: h3 :: h4 :: cs3 =>
              match hexVal h1, hexVal h2, hexVal h3, hexVal h4 with
              | some a, some b, some c3, some d4 =>
                match takeStr cs3 with
                | some (out, rest) =>
                  some (Char.ofNat (((a * 16 + b) * 16 + c3) * 16 + d4) :: out, rest)
                | none => none
              | _, _, _, _ => none
            | _ => none
          else none
    else if c.toNat < 32 then none
    else
      match takeStr cs with
      | some (out, rest) => some (c :: out, rest)
      | none => none

/-- Value of a decimal digit. -/
def digVal (c : Char) : Option Nat :=
  if '0' ≤ c ∧ c ≤ '9' then some (c.toNat - '0'.toNat) else none

/-- Take a maximal run of decimal digits. -/
def takeDigits : List Char → List Nat × List Char
  | [] => ([], [])
  | c :: cs =>
    match digVal c with
    | some d => let (ds, r) := takeDigits cs; (d :: ds, r)
    | none => ([], c :: cs)

/-- Numeric value of a digit run. -/
def digitsToNat (ds : List Nat) : Nat :=
  ds.foldl (fun a d => a * 10 + d) 0

/-- Parse an optional JSON fraction part, as digit value and digit count. -/
def parseFrac : List Char → Option ((Nat × Nat) × List Char)
  | '.' :: r =>
    let (fs, r2) := takeDigits r
    if fs = [] then none
    else some ((digitsToNat fs, fs.length), r2)
  | cs => some ((0, 0), cs)

/-- Parse an optional JSON exponent part, as a signed exponent. -/
def parseExp : List Char → Option (Int × List Char)
  | c :: r =>
    if c = 'e' ∨ c = 'E' then
      let (negE, r1) :=
        match r with
        | '+' :: t => (false, t)
        | '-' :: t => (true, t)
        | _ => (false, r)
      let (es, r2) := takeDigits r1
      if es = [] then none
      else
        let e : Int := Int.ofNat (digitsToNat es)
        some (if negE then -e else e, r2)
    else some (0, c :: r)
  | [] => some (0, [])

/-- Parse a JSON number (sign, integer part with the leading-zero rule,
fraction, exponent) into an exact rational. -/
def parseNumber (cs : List Char) : Option (ℚ × List Char) := do
  let neg : Bool := cs.headD ' ' = '-'
  let cs1 := if neg then cs.tail else cs
  let (ds, cs2) := takeDigits cs1
  if ds = [] then none
  else if ds.length > 1 ∧ ds.headD 1 = 0 then none
  else
    let ((fv, fk), cs3) ← parseFrac cs2
    let (ex, cs4) ← parseExp cs3
    let mAbs : Int := Int.ofNat (digitsToNat ds * Nat.pow 10 fk + fv)
    let m : Int := if neg then -mAbs else mAbs
    let e : Int := ex - Int.ofNat fk
    let q : ℚ :=
      if 0 ≤ e then mkRat (m * Int.ofNat (Nat.pow 10 e.toNat)) 1
      else mkRat m (Nat.pow 10 (-e).toNat)
    some (q, cs4)

mutual

/-- Fuel-indexed recursive-descent JSON value parser (model of the grammar
accepted by `JSON.parse`). -/
def parseVal : Nat → List Char → Option (Json × List Char)
  | 0, _ => none
  | fuel + 1, cs =>
    match skipWs cs with
    | [] => none
    | c :: rest =>
      if c = 'n' then
        match rest with
        | 'u' :: 'l' :: 'l' :: r => some (.null, r)
        | _ => none
      else if c = 't' then
        match rest with
        | 'r' :: 'u' :: 'e' :: r => some (.bool true, r)
        | _ => none
      else if c = 'f' then
        match rest with
        | 'a' :: 'l' :: 's' :: 'e' :: r => some (.bool false, r)
        | _ => none
      else if c = '"' then
        match takeStr rest with
        | some (out, r) => some (.str (String.mk out), r)
        | none => none
      else if c = '[' then parseItems fuel rest
      else if c = lbrace then parseMembers fuel rest
      else
        match parseNumber (c :: rest) with
        | some (q, r) => some (.num q, r)
        | none => none

/-- Parse the items of a JSON array after the opening bracket. -/
def parseItems : Nat → List Char → Option (Json × List Char)
  | 0, _ => none
  | fuel + 1, cs =>
    match skipWs cs with
    | [] => none
    | c :: r =>
      if c = ']' then some (.arr [], r)
      else
        match parseVal fuel (c :: r) with
        | some (v, r2) =>
          match parseItemsRest fuel r2 with
          | some (vs, r3) => some (.arr (v :: vs), r3)
          | none => none
        | none => none

/-- Parse the `, value` continuation of a JSON array. -/
def parseItemsRest : Nat → List Char → Option (List Json × List Char)
  | 0, _ => none
  | fuel + 1, cs =>
    match skipWs cs with
    | [] => none
    | c :: r =>
      if c = ']' then some ([], r)
      else if c = ',' then
        match parseVal fuel r with
        | some (v, r2) =>
          match parseItemsRest fuel r2 with
          | some (vs, r3) => some (v :: vs, r3)
          | none => none
        | none => none
      else none

/-- Parse the members of a JSON object after the opening brace; duplicate
keys are resolved like `JSON.parse` (later wins, first position kept). -/
def parseMembers : Nat → List Char → Option (Json × List Char)
  | 0, _ => none
  | fuel + 1, cs =>
    match skipWs cs with
    | [] => none
    | c :: r =>
      if c = rbrace then some (.obj [], r)
      else
        match parseMember fuel (c :: r) with
        | some (kv, r2) =>
          match parseMembersRest fuel r2 with
          | some (kvs, r3) =>
            some (.obj ((kv :: kvs).foldl insertField []), r3)
          | none => none
        | none => none

/-- Parse one `"key" : value` member. -/
def parseMember : Nat → List Char → Option ((String × Json) × List Char)
  | 0, _ => none
  | fuel + 1, cs =>
    match skipWs cs with
    | '"' :: r =>
      match takeStr r with
      | some (kcs, r2) =>
        match skipWs r2 with
        | ':' :: r3 =>
          match parseVal fuel r3 with
          | some (v, r4) => some ((String.mk kcs, v), r4)
          | none => none
        | _ => none
      | none => none
    | _ => none

/-- Parse the `, "key" : value` continuation of a JSON object. -/
def parseMembersRest : Nat → List Char → Option (List (String × Json) × List Char)
  | 0, _ => none
  | fuel + 1, cs =>
    match skipWs cs with
    | [] => none
    | c :: r =>
      if c = rbrace then some ([], r)
      else if c = ',' then
        match parseMember fuel r with
        | some (kv, r2) =>
          match parseMembersRest fuel r2 with
          | some (kvs, r3) => some (kv :: kvs, r3)
          | none => none
        | none => none
      else none

end

/-- Model of `JSON.parse`: parse a complete JSON text, rejecting trailing
garbage; `none` models the thrown `SyntaxError`. -/
def parseJson (s : String) : Option Json :=
  match parseVal (2 * s.length + 2) s.data with
  | some (j, rest) => if skipWs rest = [] then some j else none
  | none => none

/-- Shorthand for an integer JSON number built from core operations (numeric
literals for a Mathlib rational do not kernel-reduce). -/
def Json.int (n : Int) : Json := Json.num (mkRat n 1)

example : parseJson "null" = some .null := by decide
example : parseJson " true " = some (.bool true) := by decide
example : parseJson "12" = some (.int 12) := by decide
example : parseJson "-3" = some (.int (-3)) := by decide
example : parseJson "0.5" = some (.num (mkRat 1 2)) := by decide
example : parseJson "01" = none := by decide
example : parseJson "\"ab\"" = some (.str "ab") := by decide
example : parseJson "[1, 2]" = some (.arr [.int 1, .int 2]) := by decide
example : parseJson "\x7b\"a\":1\x7d" = some (.obj [("a", .int 1)]) := by decide
example : parseJson "\x7b\"a\":" = none := by decide
example : parseJson "1" = some (.int 1) := by decide
example : parseJson "\x7b\"a\":\x7d" = none := by decide
example : parseJson "\x7b\x7d" = some (.obj []) := by decide

/-- Character-level model of `String.startsWith` (kept explicit so that the
kernel evaluates it without the byte-position machinery). -/
def strStartsWith (s p : String) : Bool :=
  p.data.isPrefixOf s.data

/-- Drop the first `n` characters of a string (model of `String.slice(n)` for
the ASCII marker prefixes used here). -/
def strDrop (s : String) (n : Nat) : String :=
  String.mk (s.data.drop n)

/-- Characters stripped by JavaScript `String.trim` for the protocol text in
scope (ASCII whitespace; the further Unicode space classes never occur in the
wire format). -/
def isTrimWs (c : Char) : Bool :=
  c = ' ' || c = '\t' || c = '\n' || c = '\r' || c = '\x0b' || c = '\x0c'

/-- Drop leading trim-whitespace characters. -/
def dropLeadingWs : List Char → List Char
  | [] => []
  | c :: cs => if isTrimWs c then dropLeadingWs cs else c :: cs

/-- Model of JavaScript `line.trim()`. -/
def trimJs (s : String) : String :=
  String.mk ((dropLeadingWs (dropLeadingWs s.data.reverse)).reverse)

/-- Split a character list at every newline, exactly like
`buffer.split('\n')` (an empty buffer gives one empty piece, a trailing
newline gives a trailing empty piece). -/
def splitNlChars : List Char → List (List Char)
  | [] => [[]]
  | c :: cs =>
    if c = '\n' then [] :: splitNlChars cs
    else
      match splitNlChars cs with
      | [] => [[c]]
      | p :: ps => (c :: p) :: ps

/-- Model of `buffer.split('\n')` on strings. -/
def splitNl (s : String) : List String :=
  (splitNlChars s.data).map String.mk

example : splitNl "a\nb" = ["a", "b"] := by decide
example : splitNl "" = [""] := by decide
example : splitNl "a\n" = ["a", ""] := by decide

/-- Concatenation of a list of strings (used to state that a fragment list
is a partition of a full argument text). -/
def strConcat (ss : List String) : String :=
  String.mk (ss.foldr (fun s acc => s.data ++ acc) [])

/-- The base64 alphabet, by index. -/
def base64Char (n : Nat) : Char :=
  if n < 26 then Char.ofNat ('A'.toNat + n)
  else if n < 52 then Char.ofNat ('a'.toNat + (n - 26))
  else if n < 62 then Char.ofNat ('0'.toNat + (n - 52))
  else if n = 62 then '+'
  else '/'

/-- Standard base64 encoding of a byte list (bytes as naturals below 256);
model of `Buffer.from(buffer).toString("base64")`. -/
def base64Encode : List Nat → List Char
  | b0 :: b1 :: b2 :: rest =>
    let w := (b0 % 256) * 65536 + (b1 % 256) * 256 + (b2 % 256)
    base64Char (w / 262144) :: base64Char (w / 4096 % 64) ::
      base64Char (w / 64 % 64) :: base64Char (w % 64) :: base64Encode rest
  | [b0, b1] =>
    let w := (b0 % 256) * 65536 + (b1 % 256) * 256
    [base64Char (w / 262144), base64Char (w / 4096 % 64),
      base64Char (w / 64 % 64), '=']
  | [b0] =>
    let w := (b0 % 256) * 65536
    [base64Char (w / 262144), base64Char (w / 4096 % 64), '=', '=']
  | [] => []

/-- Base64 encoding as a string. -/
def base64EncodeStr (bs : List Nat) : String :=
  String.mk (base64Encode bs)

example : base64EncodeStr [77, 97, 110] = "TWFu" := by decide
example : base64EncodeStr [77, 97] = "TWE=" := by decide
example : base64EncodeStr [77] = "TQ==" := by decide

/-- Scheme-then-colon check used to model `new URL(value)` succeeding: an
absolute URL reference starts with an ASCII-alphabetic scheme, scheme
characters are alphanumeric or `+`, `-`, `.`, and a colon follows.  Relative
references (which `new URL` without a base rejects) are rejected.  Note that
a `data:` URI *does* satisfy this, exactly as it satisfies `new URL`. -/
def schemeColon : List Char → Bool
  | [] => false
  | c :: r =>
    if c = ':' then true
    else if c.isAlphanum || c = '+' || c = '-' || c = '.' then schemeColon r
    else false

/-- Model of the source's `isUrl` helper (`!!new URL(value)` guarded by
try/catch). -/
def isUrl (value : String) : Bool :=
  match value.data with
  | [] => false
  | c :: r => c.isAlpha && schemeColon r

example : isUrl "https://example.com/shot.png" = true := by decide
example : isUrl "hello world" = false := by decide
example : isUrl "data:image/png;base64,AAA" = true := by decide

/-- The enumerable own fields a value contributes under JavaScript object
spread: objects give their fields, arrays and strings give index keys,
primitives give nothing. -/
def spreadFields : Json → List (String × Json)
  | .obj fs => fs
  | .arr xs => (xs.enum.map fun p => (toString p.1, p.2))
  | .str s => (s.data.enum.map fun p => (toString p.1, Json.str (String.mk [p.2])))
  | _ => []

/-- Model of the object literal `{ ...base, ...v }` (insertion-order merge,
later keys overwrite in place; numeric-string key reordering of exotic
JavaScript objects is out of scope — no payload here uses integer-like
keys). -/
def jsSpread (base v : Json) : Json :=
  .obj ((spreadFields v).foldl insertField (spreadFields base))

example : jsSpread (.obj []) (.int 1) = .obj [] := by decide
example :
    jsSpread (.obj [("a", .int 1)]) (.obj [("b", .int 2)]) =
      .obj [("a", .int 1), ("b", .int 2)] := by decide
example :
    jsSpread (.obj [("a", .int 1)]) (.obj [("a", .int 2)]) =
      .obj [("a", .int 2)] := by decide

/-- Escape one character for a JSON string literal, as `JSON.stringify`
does. -/
def escapeChar (c : Char) : List Char :=
  if c = '"' then ['\\', '"']
  else if c = '\\' then ['\\', '\\']
  else if c = '\n' then ['\\', 'n']
  else if c = '\r' then ['\\', 'r']
  else if c = '\t' then ['\\', 't']
  else if c = Char.ofNat 8 then ['\\', 'b']
  else if c = Char.ofNat 12 then ['\\', 'f']
  else if c.toNat < 32 then
    ['\\', 'u', '0', '0',
      (if c.toNat / 16 < 10 then Char.ofNat ('0'.toNat + c.toNat / 16)
       else Char.ofNat ('a'.toNat + c.toNat / 16 - 10)),
      (if c.toNat % 16 < 10 then Char.ofNat ('0'.toNat + c.toNat % 16)
       else Char.ofNat ('a'.toNat + c.toNat % 16 - 10))]
  else [c]

/-- Serialize a string as a JSON string literal. -/
def stringifyStr (s : String) : List Char :=
  '"' :: s.data.foldr (fun c acc => escapeChar c ++ acc) ['"']

/-- Decimal digits of a natural number. -/
def natDigits (n : Nat) : List Char :=
  (toString n).data

/-- Render a rational JSON number the way `JSON.stringify` renders the
corresponding JavaScript number, for the decimally-representable rationals
the parser produces (an integer prints without a point, otherwise the
shortest decimal expansion is used). -/
def numToChars (q : ℚ) : List Char :=
  let sign : List Char := if q.num < 0 then ['-'] else []
  if q.den = 1 then sign ++ natDigits q.num.natAbs
  else
    match (List.range 40).find? (fun k => (q * mkRat (Int.ofNat (Nat.pow 10 k)) 1).den = 1) with
    | some k =>
      let m := (q * mkRat (Int.ofNat (Nat.pow 10 k)) 1).num.natAbs
      let ds := natDigits m
      let ds := List.replicate (k + 1 - ds.length) '0' ++ ds
      sign ++ ds.take (ds.length - k) ++ '.' :: ds.drop (ds.length - k)
    | none => sign ++ natDigits q.num.natAbs ++ '/' :: natDigits q.den

/-- Interleave commas between serialized parts. -/
def commaSep : List (List Char) → List Char
  | [] => []
  | [p] => p
  | p :: ps => p ++ ',' :: commaSep ps

mutual

/-- Model of `JSON.stringify` on parsed JSON values. -/
def jsonStringify : Json → List Char
  | .null => "null".data
  | .bool true => "true".data
  | .bool false => "false".data
  | .num q => numToChars q
  | .str s => stringifyStr s
  | .arr xs => '[' :: commaSep (jsonStringifyList xs) ++ [']']
  | .obj fs => lbrace :: commaSep (jsonStringifyFields fs) ++ [rbrace]

/-- Serialize each array element. -/
def jsonStringifyList : List Json → List (List Char)
  | [] => []
  | x :: xs => jsonStringify x :: jsonStringifyList xs

/-- Serialize each object member. -/
def jsonStringifyFields : List (String × Json) → List (List Char)
  | [] => []
  | (k, v) :: fs => (stringifyStr k ++ ':' :: jsonStringify v) :: jsonStringifyFields fs

end

/-- String form of `JSON.stringify`. -/
def jsonStringifyStr (j : Json) : String :=
  String.mk (jsonStringify j)

example : jsonStringifyStr (.obj [("a", .int 1)]) = "\x7b\"a\":1\x7d" := by decide
example : jsonStringifyStr (.arr [.null, .str "x"]) = "[null,\"x\"]" := by decide

/-- A `delta.tool_calls[i]` fragment, as the three properties the assemblers
read from it (`index`, `id`, `function`), each possibly absent. -/
structure ToolCallDelta where
  index : Option Json := none
  id : Option Json := none
  function : Option Json := none
  deriving DecidableEq

/-- View a parsed fragment object through the properties the loop reads. -/
def readToolCallDelta (d : Json) : ToolCallDelta :=
  ⟨getField d "index", getField d "id", getField d "function"⟩

/-- A truthy string value: the model of `if (x) field = x` for the string
fields of the wire protocol (`id`, `function.name`, `function.arguments`);
non-string truthy values never occur on these properties of the wire
format and are out of scope. -/
def jsStrVal : Option Json → Option String
  | some (.str s) => if s = "" then none else some s
  | _ => none

/-- One accumulating tool invocation:
`{ id: "", name: "", args: {} }` plus the lazily-created `argsString`
raw-argument buffer (`none` models the property being absent). -/
structure ToolCallAcc where
  id : String := ""
  name : String := ""
  args : Json := .obj []
  argsString : Option String := none
  deriving DecidableEq

/-- The freshly-pushed empty invocation. -/
def initToolCall : ToolCallAcc := {}

/-- Effect of `if (toolCallDelta.id) toolCall.id = toolCallDelta.id`. -/
def applyId (e : ToolCallAcc) (td : ToolCallDelta) : ToolCallAcc :=
  match jsStrVal td.id with
  | some s => { e with id := s }
  | none => e

/-- Effect of `if (toolCallDelta.function.name) toolCall.name = ...`
(property access on a falsy or non-object `function` yields nothing). -/
def applyName (e : ToolCallAcc) (td : ToolCallDelta) : ToolCallAcc :=
  match td.function with
  | some f =>
    match jsStrVal (getField f "name") with
    | some s => { e with name := s }
    | none => e
  | none => e

/-- Effect of the `grok-patch.ts` argument-fragment handling: first try to
parse the fragment alone and spread it into `args`; only if that parse
fails, append the fragment to the `argsString` buffer and re-parse the
buffer, assigning `args` on success. -/
def applyArgs (e : ToolCallAcc) (td : ToolCallDelta) : ToolCallAcc :=
  match td.function with
  | some f =>
    match jsStrVal (getField f "arguments") with
    | some a =>
      match parseJson a with
      | some v => { e with args := jsSpread e.args v }
      | none =>
        match parseJson ((e.argsString.getD "") ++ a) with
        | some v => { e with argsString := some ((e.argsString.getD "") ++ a), args := v }
        | none => { e with argsString := some ((e.argsString.getD "") ++ a) }
    | none => e
  | none => e

/-- Full effect of one fragment on its invocation in
`GrokChatModel._streamGenerate` (id, then name, then arguments, exactly in
source order). -/
def updateEntry (e : ToolCallAcc) (td : ToolCallDelta) : ToolCallAcc :=
  applyArgs (applyName (applyId e td) td) td

/-- Effective index of a fragment: `toolCallDelta.index || 0`.  Absent and
falsy values give `0`; a non-negative integer gives itself; the remaining
values (negative, fractional or non-numeric truthy indices, which the wire
protocol never produces) take the exception path of the enclosing
try/catch. -/
def jsIndexVal : Option Json → Option Nat
  | none => some 0
  | some (.num q) => if q.den = 1 ∧ 0 ≤ q.num then some q.num.toNat else none
  | some v => if jsTruthy v then none else some 0

/-- Effect of `while (accumulatedToolCalls.length <= index) push({...})`. -/
def padTo (tcs : List ToolCallAcc) (n : Nat) : List ToolCallAcc :=
  tcs ++ List.replicate (n - tcs.length) initToolCall

/-- Process one fragment of `delta.tool_calls` against the accumulator
(`grok-patch.ts` variant); `Except.error` models a thrown exception, which
carries the mutations already applied (the enclosing catch keeps them). -/
def processOneDelta (tcs : List ToolCallAcc) (td : ToolCallDelta) :
    Except (List ToolCallAcc) (List ToolCallAcc) :=
  match jsIndexVal td.index with
  | none => .error tcs
  | some ix =>
    let tcs := padTo tcs (ix + 1)
    .ok (tcs.set ix (updateEntry (tcs.getD ix initToolCall) td))

/-- The `for (const toolCallDelta of delta.tool_calls)` loop
(`grok-patch.ts` variant); an exception aborts the remaining fragments of
this event but keeps the mutations made so far. -/
def processToolCallDeltas : List ToolCallDelta → List ToolCallAcc → List ToolCallAcc
  | [], tcs => tcs
  | td :: rest, tcs =>
    match processOneDelta tcs td with
    | .ok t => processToolCallDeltas rest t
    | .error t => t

/-- The accumulation state of one in-flight streaming call: grown content,
in-progress tool invocations, and the metadata last seen. -/
structure StreamAcc where
  content : String := ""
  toolCalls : List ToolCallAcc := []
  metaId : Option Json := none
  metaModel : Option Json := none
  metaUsage : Option Json := none
  deriving DecidableEq

/-- Metadata updates (`if (jsonData.id) responseMetadata.id = ...` etc). -/
def updateMeta (acc : StreamAcc) (j : Json) : StreamAcc :=
  let a1 :=
    if jsTruthyOpt (getField j "id") then { acc with metaId := getField j "id" } else acc
  let a2 :=
    if jsTruthyOpt (getField j "model") then { a1 with metaModel := getField j "model" } else a1
  if jsTruthyOpt (getField j "usage") then { a2 with metaUsage := getField j "usage" } else a2

/-- A LangChain `AIMessage` as the adapters build it (content, tool calls,
and the `response_metadata` fields used). -/
structure AIMessage where
  content : String
  tool_calls : List ToolCallAcc
  metaId : Option Json := none
  metaModel : Option Json := none
  metaUsage : Option Json := none
  metaFinish : Option Json := none
  deriving DecidableEq

namespace GrokChatModel

/-- Content and tool-call handling of one parsed `delta` object
(`grok-patch.ts` `_streamGenerate`): string content is appended when truthy;
a `tool_calls` array is folded fragment by fragment. -/
def processDeltaObj (acc : StreamAcc) (d : Json) : StreamAcc :=
  let acc :=
    match getField d "content" with
    | some (.str s) => if s ≠ "" then { acc with content := acc.content ++ s } else acc
    | _ => acc
  match getField d "tool_calls" with
  | some (.arr ds) =>
    { acc with toolCalls := processToolCallDeltas (ds.map readToolCallDelta) acc.toolCalls }
  | _ => acc

/-- Effect of one parsed stream event (`jsonData`): guarded on
`jsonData.choices && jsonData.choices[0]`, metadata first, then the delta.
A missing or non-object `delta` leaves the metadata mutations in place (the
exception it raises is swallowed by the per-line catch). -/
def processEvent (acc : StreamAcc) (j : Json) : StreamAcc :=
  match getField j "choices" with
  | some (.arr (c0 :: _)) =>
    if jsTruthy c0 then
      let acc1 := updateMeta acc j
      match getField c0 "delta" with
      | some d => processDeltaObj acc1 d
      | none => acc1
    else acc
  | _ => acc

/-- One SSE data payload: parsed and processed; a `JSON.parse` failure is
caught, logged and skipped, leaving the accumulator unchanged. -/
def processPayload (acc : StreamAcc) (p : String) : StreamAcc :=
  match parseJson p with
  | none => acc
  | some j => processEvent acc j

end GrokChatModel

/-- Extract the payload of an SSE data line: trim, check the `data: `
marker, strip it.  `none` means the line is ignored. -/
def sseData (line : String) : Option String :=
  let t := trimJs line
  if strStartsWith t "data: " then some (strDrop t 6) else none

namespace GrokChatModel

/-- The `for (const line of lines)` loop of `_streamGenerate`: the `[DONE]`
sentinel breaks out of this chunk's lines (the enclosing read loop
continues), every other data payload is processed. -/
def processLines : List String → StreamAcc → StreamAcc
  | [], acc => acc
  | l :: ls, acc =>
    match sseData l with
    | none => processLines ls acc
    | some p => if p = "[DONE]" then acc else processLines ls (processPayload acc p)

/-- One reader chunk: append to the line buffer, split on newlines, keep the
trailing incomplete line, process the complete ones. -/
def feedChunk (st : String × StreamAcc) (chunk : String) : String × StreamAcc :=
  let parts := splitNl (st.1 ++ chunk)
  (parts.getLastD "", processLines parts.dropLast st.2)

/-- Whole-stream processing of `_streamGenerate`: fold the decoded chunks
through the buffer/line loop, starting from the empty accumulator. -/
def runStream (chunks : List String) : StreamAcc :=
  (chunks.foldl feedChunk ("", {})).2

/-- The invocation filter applied to the final message:
`tc => tc.id && tc.name`. -/
def keepToolCall (tc : ToolCallAcc) : Bool :=
  tc.id ≠ "" && tc.name ≠ ""

/-- The final `AIMessage` built after the read loop: accumulated content,
the tool calls filtered to those with truthy id and name, and the metadata
last seen. -/
def finalMessage (acc : StreamAcc) : AIMessage :=
  { content := acc.content
    tool_calls := acc.toolCalls.filter keepToolCall
    metaId := acc.metaId
    metaModel := acc.metaModel
    metaUsage := acc.metaUsage }

end GrokChatModel

namespace GrokStreamingClient

/-- Argument handling of the `GrokStreamingClient` variant: the fragment is
parsed and spread directly, with **no** raw-argument buffer; a parse failure
throws (modelled as `Except.error` carrying the mutations applied so far,
namely id and name). -/
def p0UpdateEntry (e : ToolCallAcc) (td : ToolCallDelta) :
    Except ToolCallAcc ToolCallAcc :=
  let e := applyName (applyId e td) td
  match td.function with
  | some f =>
    match jsStrVal (getField f "arguments") with
    | some a =>
      match parseJson a with
      | some v => .ok { e with args := jsSpread e.args v }
      | none => .error e
    | none => .ok e
  | none => .ok e

/-- Process one fragment (`GrokStreamingClient` variant). -/
def p0ProcessOneDelta (tcs : List ToolCallAcc) (td : ToolCallDelta) :
    Except (List ToolCallAcc) (List ToolCallAcc) :=
  match jsIndexVal td.index with
  | none => .error tcs
  | some ix =>
    let tcs := padTo tcs (ix + 1)
    match p0UpdateEntry (tcs.getD ix initToolCall) td with
    | .ok e => .ok (tcs.set ix e)
    | .error e => .error (tcs.set ix e)

/-- The fragment loop (`GrokStreamingClient` variant): an exception aborts
the remaining fragments of this event but keeps prior mutations. -/
def p0ProcessToolCallDeltas : List ToolCallDelta → List ToolCallAcc → List ToolCallAcc
  | [], tcs => tcs
  | td :: rest, tcs =>
    match p0ProcessOneDelta tcs td with
    | .ok t => p0ProcessToolCallDeltas rest t
    | .error t => t

/-- One parsed `delta` object (`GrokStreamingClient` variant). -/
def p0ProcessDeltaObj (acc : StreamAcc) (d : Json) : StreamAcc :=
  let acc :=
    match getField d "content" with
    | some (.str s) => if s ≠ "" then { acc with content := acc.content ++ s } else acc
    | _ => acc
  match getField d "tool_calls" with
  | some (.arr ds) =>
    { acc with toolCalls := p0ProcessToolCallDeltas (ds.map readToolCallDelta) acc.toolCalls }
  | _ => acc

/-- One parsed stream event (`GrokStreamingClient` variant). -/
def p0ProcessEvent (acc : StreamAcc) (j : Json) : StreamAcc :=
  match getField j "choices" with
  | some (.arr (c0 :: _)) =>
    if jsTruthy c0 then
      let acc1 := updateMeta acc j
      match getField c0 "delta" with
      | some d => p0ProcessDeltaObj acc1 d
      | none => acc1
    else acc
  | _ => acc

/-- One SSE data payload (`GrokStreamingClient` variant). -/
def p0ProcessPayload (acc : StreamAcc) (p : String) : StreamAcc :=
  match parseJson p with
  | none => acc
  | some j => p0ProcessEvent acc j

/-- The line loop of `streamChatCompletion`: on the `[DONE]` sentinel the
generator yields the final message and **returns** (the whole stream ends);
the boolean records that return. -/
def p0ProcessLines : List String → StreamAcc → StreamAcc × Bool
  | [], acc => (acc, false)
  | l :: ls, acc =>
    match sseData l with
    | none => p0ProcessLines ls acc
    | some p =>
      if p = "[DONE]" then (acc, true)
      else p0ProcessLines ls (p0ProcessPayload acc p)

/-- Buffer/line state of one `streamChatCompletion` call. -/
structure P0State where
  buffer : String
  acc : StreamAcc
  finished : Bool

/-- One reader chunk (`GrokStreamingClient` variant); after the generator
has returned, no further chunk is read. -/
def p0FeedChunk (st : P0State) (chunk : String) : P0State :=
  if st.finished then st
  else
    let parts := splitNl (st.buffer ++ chunk)
    let (acc, fin) := p0ProcessLines parts.dropLast st.acc
    ⟨parts.getLastD "", acc, fin⟩

/-- Whole-stream processing of `streamChatCompletion`. -/
def p0Run (chunks : List String) : StreamAcc :=
  (chunks.foldl p0FeedChunk ⟨"", {}, false⟩).acc

/-- The final message yielded by `streamChatCompletion` — both at the
`[DONE]` sentinel and at connection close it carries
`accumulatedToolCalls` **unfiltered**. -/
def p0FinalMessage (chunks : List String) : AIMessage :=
  let a := p0Run chunks
  { content := a.content
    tool_calls := a.toolCalls
    metaId := a.metaId
    metaModel := a.metaModel
    metaUsage := a.metaUsage }

end GrokStreamingClient

/-- Decode one wire `tool_calls[]` entry as both non-streaming decoders do:
`{ id: tc.id, name: tc.function.name, args: JSON.parse(tc.function.arguments || "{}") }`.
`Except.error` models the thrown exception (a missing `function` makes the
`.name` access throw; an unparseable non-empty `arguments` string makes
`JSON.parse` throw).  `id` and `name` are modelled for the string values
the wire protocol produces (absent reads as the empty string). -/
def decodeToolCall (tc : Json) : Except Unit ToolCallAcc :=
  match getField tc "function" with
  | some (.obj ffs) =>
    let f := Json.obj ffs
    let name :=
      match getField f "name" with
      | some (.str s) => s
      | _ => ""
    let argsStr :=
      match jsStrVal (getField f "arguments") with
      | some s => s
      | none => "\x7b\x7d"
    match parseJson argsStr with
    | some v =>
      .ok { id := (match getField tc "id" with | some (.str s) => s | _ => ""),
            name := name, args := v }
    | none => .error ()
  | _ => .error ()

/-- Decode the whole `tool_calls` array; the first exception aborts the
`map`. -/
def decodeToolCalls : List Json → Except Unit (List ToolCallAcc)
  | [] => .ok []
  | tc :: rest =>
    match decodeToolCall tc with
    | .ok r =>
      match decodeToolCalls rest with
      | .ok rs => .ok (r :: rs)
      | .error e => .error e
    | .error e => .error e

/-- Decode a parsed non-streaming response body into the `AIMessage` both
non-streaming paths build (`data.choices[0].message`, `content || ""`,
`tool_calls?.map(...) || []`, metadata).  `Except.error` models any
exception thrown while reading the shape (missing `choices`, empty
`choices`, missing `message`, a tool-call decode failure). -/
def decodeMessage (data : Json) : Except Unit AIMessage :=
  match getField data "choices" with
  | some (.arr (c0 :: _)) =>
    match getField c0 "message" with
    | some (.obj mfs) =>
      let m := Json.obj mfs
      let content :=
        match getField m "content" with
        | some (.str s) => s
        | _ => ""
      let tcsE : Except Unit (List ToolCallAcc) :=
        match getField m "tool_calls" with
        | some (.arr tcs) => decodeToolCalls tcs
        | some .null => .ok []
        | some _ => .error ()
        | none => .ok []
      match tcsE with
      | .ok tcs =>
        .ok { content := content, tool_calls := tcs,
              metaId := getField data "id", metaModel := getField data "model",
              metaUsage := getField data "usage",
              metaFinish := getField c0 "finish_reason" }
      | .error e => .error e
    | _ => .error ()
  | _ => .error ()

/-- Outcome of the `fetch` + `response.json()` round trip as the
non-streaming paths observe it. -/
inductive FetchOutcome where
  | netError
  | httpError (status : Nat) (statusText : String)
  | ok (body : String)
  deriving DecidableEq

/-- The screenshot request argument object shared by both fallback
messages. -/
def screenshotArgs : Json :=
  .obj [("action", .obj [("type", .str "screenshot")])]

namespace GrokChatModel

/-- The scripted fallback `AIMessage` of `grok-patch.ts` `_generate`'s catch
handler. -/
def fallbackMessage : AIMessage :=
  { content := "I'm having trouble connecting to the Grok API. Let me take a screenshot to see the current state."
    tool_calls := [{ id := "fallback_screenshot", name := "computer_use_preview",
                     args := screenshotArgs }] }

/-- The non-streaming branch of `_generate`: a network error, a non-ok
status (`throw` into the catch), an unparseable body (`response.json()`
rejects) or a shape error while decoding all land in the catch handler,
which returns the fallback message; a well-shaped body decodes normally. -/
def generateNonStreaming (outcome : FetchOutcome) : AIMessage :=
  match outcome with
  | .netError => fallbackMessage
  | .httpError _ _ => fallbackMessage
  | .ok body =>
    match parseJson body with
    | none => fallbackMessage
    | some data =>
      match decodeMessage data with
      | .ok msg => msg
      | .error _ => fallbackMessage

end GrokChatModel

namespace GrokClient

/-- The scripted fallback `AIMessage` of the unnamed module's
`GrokClient.createChatCompletion` catch handler. -/
def fallbackMessage : AIMessage :=
  { content := "I'm having trouble connecting to the Grok API. Let me try a different approach. I'll take a screenshot first to see the current state."
    tool_calls := [{ id := "fallback_screenshot", name := "computer_use",
                     args := screenshotArgs }]
    metaId := some (.str "fallback_response")
    metaModel := some (.str "grok-2-vision-1212")
    metaUsage := some (.obj [("prompt_tokens", .int 0), ("completion_tokens", .int 50),
                             ("total_tokens", .int 50)]) }

/-- `GrokClient.createChatCompletion`: same decode, same catch-all fallback
policy (its fallback text, tool name and metadata differ). -/
def createChatCompletion (outcome : FetchOutcome) : AIMessage :=
  match outcome with
  | .netError => fallbackMessage
  | .httpError _ _ => fallbackMessage
  | .ok body =>
    match parseJson body with
    | none => fallbackMessage
    | some data =>
      match decodeMessage data with
      | .ok msg => msg
      | .error _ => fallbackMessage

end GrokClient

/-- The message roles distinguished by `getType()` dispatch. -/
inductive MsgKind where
  | system
  | human
  | ai
  | tool
  | other
  deriving DecidableEq

/-- A pending tool invocation on an assistant message. -/
structure AIToolCall where
  id : String
  name : String
  args : Json
  deriving DecidableEq

/-- A LangChain conversation message as the translators read it: role tag,
`content`, `tool_call_id`, `additional_kwargs.type`, and pending tool
calls. -/
structure ChatMsg where
  kind : MsgKind
  content : Json := .str ""
  tool_call_id : Option String := none
  kwargsType : Option String := none
  tool_calls : List AIToolCall := []
  deriving DecidableEq

/-- Model of `x || ""`. -/
def jsOrEmptyStr (c : Json) : Json :=
  if jsTruthy c then c else .str ""

/-- The single `image_url` content-part list emitted for an image tool
result. -/
def imageContent (url : String) : Json :=
  .arr [.obj [("type", .str "image_url"), ("image_url", .obj [("url", .str url)])]]

/-- One provider-facing `tool_calls[]` entry of an assistant wire message. -/
structure WireToolCall where
  id : String
  type : String
  name : String
  arguments : String
  deriving DecidableEq

/-- A provider-facing wire message. -/
structure WireMsg where
  role : String
  content : Json
  tool_call_id : Option String := none
  tool_calls : Option (List WireToolCall) := none
  deriving DecidableEq

/-- The unnamed module's `convertMessageToGrokFormat`, branch for branch:
system and human pass content through; assistant serializes its pending tool
calls; a tool result whose string content is a `data:image/` URI becomes a
user message with one image part, any other tool result becomes
`{ role: "tool", tool_call_id, content }`; unknown roles fall back to a user
message. -/
def convertMessageToGrokFormat (m : ChatMsg) : WireMsg :=
  match m.kind with
  | .system => { role := "system", content := m.content }
  | .human => { role := "user", content := m.content }
  | .ai =>
    let base : WireMsg := { role := "assistant", content := jsOrEmptyStr m.content }
    if m.tool_calls.length > 0 then
      { base with
          tool_calls := some (m.tool_calls.map fun tc =>
            ⟨tc.id, "function", tc.name, jsonStringifyStr tc.args⟩) }
    else base
  | .tool =>
    match m.content with
    | .str s =>
      if strStartsWith s "data:image/" then { role := "user", content := imageContent s }
      else { role := "tool", content := .str s, tool_call_id := m.tool_call_id }
    | c => { role := "tool", content := c, tool_call_id := m.tool_call_id }
  | .other => { role := "user", content := jsOrEmptyStr m.content }

namespace GrokChatModel

/-- The inline message mapping of `grok-patch.ts` `_generate`: note that a
non-image tool result becomes `{ role: "user", content: content || "" }`
here (no `tool` role, no `tool_call_id`), and an assistant message keeps
only its content. -/
def convertMessage (m : ChatMsg) : WireMsg :=
  match m.kind with
  | .system => { role := "system", content := m.content }
  | .human => { role := "user", content := m.content }
  | .ai => { role := "assistant", content := m.content }
  | .tool =>
    match m.content with
    | .str s =>
      if strStartsWith s "data:image/" then { role := "user", content := imageContent s }
      else { role := "user", content := jsOrEmptyStr (.str s) }
    | c => { role := "user", content := jsOrEmptyStr c }
  | .other => { role := "user", content := jsOrEmptyStr m.content }

end GrokChatModel

/-- An oracle for `fetch(url)` + `arrayBuffer()`: the fetched bytes, or
`none` for a network failure. -/
def FetchOracle : Type := String → Option (List Nat)

/-- The unnamed module's `imageUrlToBase64`: fetch the resource,
base64-encode the bytes, wrap them in a `data:image/png;base64,` URI; a
fetch failure propagates (`Except.error`). -/
def imageUrlToBase64 (fetchO : FetchOracle) (imageUrl : String) : Except String String :=
  match fetchO imageUrl with
  | none => .error "fetch failed"
  | some bytes => .ok ("data:image/png;base64," ++ base64EncodeStr bytes)

/-- The unnamed module's `conditionallyUpdateToolMessageContent`: only a
**tool** message tagged `additional_kwargs.type === "computer_call_output"`
with string content accepted by `isUrl` is rewritten (to the resolved data
URI); every other message passes through unchanged.  An error from the
resolution propagates. -/
def conditionallyUpdateToolMessageContent (fetchO : FetchOracle) (m : ChatMsg) :
    Except String ChatMsg :=
  match m.content with
  | .str s =>
    if m.kind = .tool ∧ m.kwargsType = some "computer_call_output" ∧ isUrl s = true then
      match imageUrlToBase64 fetchO s with
      | .ok d => .ok { m with content := .str d }
      | .error e => .error e
    else .ok m
  | _ => .ok m

/-- Resolve every message of the history (`Promise.all` over the runnable);
the first failure rejects the whole batch. -/
def resolveMessages (fetchO : FetchOracle) : List ChatMsg → Except String (List ChatMsg)
  | [] => .ok []
  | m :: rest =>
    match conditionallyUpdateToolMessageContent fetchO m with
    | .ok fm =>
      match resolveMessages fetchO rest with
      | .ok fms => .ok (fm :: fms)
      | .error e => .error e
    | .error e => .error e

/-- Configuration bag consumed by `callModelCustom`
(`getConfigurationWithDefaults`: `zdrEnabled ?? false`,
`prompt ?? undefined`). -/
structure CuaConfig where
  zdrEnabled : Option Bool := none
  prompt : Option (String ⊕ ChatMsg) := none

/-- Modelled from the external `@langchain/langgraph-cua` helper
`isComputerCallToolMessage` (not part of this repository): a tool message
tagged `additional_kwargs.type === "computer_call_output"`, matching the
tag check this repository itself performs in
`conditionallyUpdateToolMessageContent`. -/
def isComputerCallToolMessage (m : ChatMsg) : Bool :=
  m.kind = .tool && m.kwargsType = some "computer_call_output"

/-- The system-prompt prefix prepended in the full-history branch: a truthy
string prompt becomes one system wire message, a structured message goes
through the translator, an absent (or falsy) prompt adds nothing. -/
def promptPrefixMsgs (prompt : Option (String ⊕ ChatMsg)) : List WireMsg :=
  match prompt with
  | none => []
  | some (.inl s) => if s = "" then [] else [{ role := "system", content := .str s }]
  | some (.inr pm) => [convertMessageToGrokFormat pm]

/-- The unnamed module's `callModelCustom`, reduced to the wire messages it
sends to `createChatCompletion`: when the last message is a computer-call
tool output and `zdrEnabled` is off, only that single resolved message is
sent; otherwise the whole resolved history is sent behind the prompt
prefix.  An empty history makes the external last-message predicate throw
(`Except.error`). -/
def callModelCustom (fetchO : FetchOracle) (cfg : CuaConfig) (msgs : List ChatMsg) :
    Except String (List WireMsg) :=
  match msgs.getLast? with
  | none => .error "no messages"
  | some last =>
    let zdr := cfg.zdrEnabled.getD false
    if isComputerCallToolMessage last && !zdr then
      match conditionallyUpdateToolMessageContent fetchO last with
      | .ok fm => .ok [convertMessageToGrokFormat fm]
      | .error e => .error e
    else
      match resolveMessages fetchO msgs with
      | .ok fms => .ok (promptPrefixMsgs cfg.prompt ++ fms.map convertMessageToGrokFormat)
      | .error e => .error e

/-- The per-call options read by the request builders. -/
structure CallOptions where
  temperature : Option ℚ := none
  max_tokens : Option Int := none

/-- Model of `options.temperature || 0.1`-style defaulting on numbers
(`0` is falsy and is replaced; `NaN` has no rational counterpart and no
claim involves it). -/
def jsNumOr (o : Option ℚ) (d : ℚ) : ℚ :=
  match o with
  | some t => if t.num = 0 then d else t
  | none => d

/-- Model of `options.max_tokens || 4096`-style defaulting on integers. -/
def jsIntOr (o : Option Int) (d : Int) : Int :=
  match o with
  | some t => if t = 0 then d else t
  | none => d

/-- The JSON body both `fetch` calls serialize. -/
structure RequestBody where
  model : String
  messages : List WireMsg
  tools : Option (List Json)
  tool_choice : Option String
  temperature : ℚ
  max_tokens : Int
  stream : Bool

namespace GrokChatModel

/-- The request body of the non-streaming `fetch` in `_generate`. -/
def generateRequestBody (xaiMessages : List WireMsg) (grokTools : List Json)
    (options : CallOptions) : RequestBody :=
  { model := "grok-2-vision-1212"
    messages := xaiMessages
    tools := if grokTools.length > 0 then some grokTools else none
    tool_choice := if grokTools.length > 0 then some "auto" else none
    temperature := jsNumOr options.temperature (mkRat 1 10)
    max_tokens := jsIntOr options.max_tokens 4096
    stream := false }

/-- The request body of the streaming `fetch` in `_streamGenerate`
(identical but for `stream: true`, duplicated as in the source). -/
def streamGenerateRequestBody (xaiMessages : List WireMsg) (grokTools : List Json)
    (options : CallOptions) : RequestBody :=
  { model := "grok-2-vision-1212"
    messages := xaiMessages
    tools := if grokTools.length > 0 then some grokTools else none
    tool_choice := if grokTools.length > 0 then some "auto" else none
    temperature := jsNumOr options.temperature (mkRat 1 10)
    max_tokens := jsIntOr options.max_tokens 4096
    stream := true }

end GrokChatModel

/-! Theorems about the claims. -/

/-- C10: for every options object, the outgoing request body's
`temperature` equals `options.temperature` when that value is truthy and
`0.1` otherwise, and `max_tokens` equals `options.max_tokens` when truthy
and `4096` otherwise — in particular a caller-supplied `0` is silently
replaced by the default — in both the `_generate` and the `_streamGenerate`
request bodies. -/
theorem c10_request_defaults (xaiMessages : List WireMsg) (grokTools : List Json)
    (options : CallOptions) (t : ℚ) (n : Int) :
    (options.temperature = some t → t.num ≠ 0 →
      (GrokChatModel.generateRequestBody xaiMessages grokTools options).temperature = t ∧
      (GrokChatModel.streamGenerateRequestBody xaiMessages grokTools options).temperature = t) ∧
    (options.temperature = none ∨ options.temperature = some (mkRat 0 1) →
      (GrokChatModel.generateRequestBody xaiMessages grokTools options).temperature = mkRat 1 10 ∧
      (GrokChatModel.streamGenerateRequestBody xaiMessages grokTools options).temperature = mkRat 1 10) ∧
    (options.max_tokens = some n → n ≠ 0 →
      (GrokChatModel.generateRequestBody xaiMessages grokTools options).max_tokens = n ∧
      (GrokChatModel.streamGenerateRequestBody xaiMessages grokTools options).max_tokens = n) ∧
    (options.max_tokens = none ∨ options.max_tokens = some 0 →
      (GrokChatModel.generateRequestBody xaiMessages grokTools options).max_tokens = 4096 ∧
      (GrokChatModel.streamGenerateRequestBody xaiMessages grokTools options).max_tokens = 4096) := by
  refine ⟨?_, ?_, ?_, ?_⟩
  · intro ht htr
    simp [GrokChatModel.generateRequestBody, GrokChatModel.streamGenerateRequestBody,
      jsNumOr, ht, htr]
  · rintro (ht | ht) <;>
      simp [GrokChatModel.generateRequestBody, GrokChatModel.streamGenerateRequestBody,
        jsNumOr, ht]
  · intro hn hnr
    simp [GrokChatModel.generateRequestBody, GrokChatModel.streamGenerateRequestBody,
      jsIntOr, hn, hnr]
  · rintro (hn | hn) <;>
      simp [GrokChatModel.generateRequestBody, GrokChatModel.streamGenerateRequestBody,
        jsIntOr, hn]

/-- Witness for C10 at a concrete options object: a truthy temperature is
kept, a `max_tokens` of `0` is replaced by `4096`. -/
theorem c10_request_defaults_witness :
    (GrokChatModel.generateRequestBody [] [] ⟨some (mkRat 7 10), some 0⟩).temperature =
        mkRat 7 10 ∧
    (GrokChatModel.generateRequestBody [] [] ⟨some (mkRat 7 10), some 0⟩).max_tokens = 4096 :=
  ⟨((c10_request_defaults [] [] ⟨some (mkRat 7 10), some 0⟩ (mkRat 7 10) 0).1 rfl
      (by decide)).1,
    ((c10_request_defaults [] [] ⟨some (mkRat 7 10), some 0⟩ (mkRat 7 10) 0).2.2.2
      (Or.inr rfl)).1⟩

/-- C5: every failure of the non-streaming call path — network error,
non-success HTTP status, unparseable body, or a body whose shape fails to
decode — returns (never throws) the deterministic fallback assistant
message, whose only tool invocation requests `{action: {type:
"screenshot"}}`; this holds for `GrokChatModel._generate` and for
`GrokClient.createChatCompletion` alike. -/
theorem c5_failure_fallback (o : FetchOutcome)
    (h : o = .netError ∨ (∃ st stx, o = .httpError st stx) ∨
      (∃ body, o = .ok body ∧ (parseJson body = none ∨
        (∃ data, parseJson body = some data ∧ decodeMessage data = .error ())))) :
    GrokChatModel.generateNonStreaming o = GrokChatModel.fallbackMessage ∧
    GrokClient.createChatCompletion o = GrokClient.fallbackMessage ∧
    GrokChatModel.fallbackMessage.tool_calls.map (fun tc => tc.args) = [screenshotArgs] ∧
    GrokClient.fallbackMessage.tool_calls.map (fun tc => tc.args) = [screenshotArgs] := by
  refine ⟨?_, ?_, by decide, by decide⟩ <;>
    · rcases h with rfl | ⟨st, stx, rfl⟩ | ⟨body, rfl, hb | ⟨data, hd, he⟩⟩ <;>
        simp [GrokChatModel.generateNonStreaming, GrokClient.createChatCompletion, *]

/-- Witness for C5 at a simulated 500 response. -/
theorem c5_failure_fallback_witness :
    GrokChatModel.generateNonStreaming (.httpError 500 "Internal Server Error") =
      GrokChatModel.fallbackMessage ∧
    GrokClient.createChatCompletion (.httpError 500 "Internal Server Error") =
      GrokClient.fallbackMessage ∧
    GrokChatModel.fallbackMessage.tool_calls.map (fun tc => tc.args) = [screenshotArgs] ∧
    GrokClient.fallbackMessage.tool_calls.map (fun tc => tc.args) = [screenshotArgs] :=
  c5_failure_fallback (.httpError 500 "Internal Server Error")
    (Or.inr (Or.inl ⟨500, "Internal Server Error", rfl⟩))

/-- C9: a data line whose payload is not valid JSON is skipped and the line
loop continues: processing any line list with such a line inserted gives
exactly the state of processing the list without it, so the stream is never
terminated by it and later well-formed lines still produce their updates. -/
theorem c9_malformed_line_skipped (L1 L2 : List String) (bad p : String) (acc : StreamAcc)
    (h1 : sseData bad = some p) (h2 : p ≠ "[DONE]") (h3 : parseJson p = none) :
    GrokChatModel.processLines (L1 ++ bad :: L2) acc =
      GrokChatModel.processLines (L1 ++ L2) acc := by
  induction L1 generalizing acc with
  | nil =>
    simp only [List.nil_append, GrokChatModel.processLines, h1, h2,
      GrokChatModel.processPayload, h3]
    simp [h2]
  | cons l ls ih =>
    simp only [List.cons_append, GrokChatModel.processLines]
    cases hsd : sseData l with
    | none => exact ih acc
    | some q =>
      by_cases hq : q = "[DONE]"
      · simp [hq]
      · simp only [hq, if_false]
        exact ih _

/-- Witness for C9: a truncated-JSON data line between two healthy content
lines changes nothing, and the healthy lines still accumulate their
content. -/
theorem c9_malformed_line_skipped_witness :
    GrokChatModel.processLines
        (["data: \x7b\"choices\":[\x7b\"delta\":\x7b\"content\":\"he\"\x7d\x7d]\x7d"] ++
          "data: \x7b\"choi" ::
            ["data: \x7b\"choices\":[\x7b\"delta\":\x7b\"content\":\"llo\"\x7d\x7d]\x7d"]) {} =
      GrokChatModel.processLines
        (["data: \x7b\"choices\":[\x7b\"delta\":\x7b\"content\":\"he\"\x7d\x7d]\x7d"] ++
          ["data: \x7b\"choices\":[\x7b\"delta\":\x7b\"content\":\"llo\"\x7d\x7d]\x7d"]) {} ∧
    (GrokChatModel.processLines
        (["data: \x7b\"choices\":[\x7b\"delta\":\x7b\"content\":\"he\"\x7d\x7d]\x7d"] ++
          ["data: \x7b\"choices\":[\x7b\"delta\":\x7b\"content\":\"llo\"\x7d\x7d]\x7d"]) {}).content =
      "hello" :=
  ⟨c9_malformed_line_skipped _ _ "data: \x7b\"choi" "\x7b\"choi" {} (by decide) (by decide)
      (by decide),
    by decide⟩

/-- C2 (amended): in `GrokChatModel._streamGenerate`, for every chunk
sequence (whether it reaches the `[DONE]` sentinel or simply ends with the
connection), the final message's tool invocations all have a non-empty id
and a non-empty name, and every accumulated invocation whose id or name is
still empty at stream end is dropped from the final message. -/
theorem c2_final_invocations_filtered (chunks : List String) (tc : ToolCallAcc) :
    (tc ∈ (GrokChatModel.finalMessage (GrokChatModel.runStream chunks)).tool_calls →
      tc.id ≠ "" ∧ tc.name ≠ "") ∧
    (tc ∈ (GrokChatModel.runStream chunks).toolCalls → tc.id = "" ∨ tc.name = "" →
      tc ∉ (GrokChatModel.finalMessage (GrokChatModel.runStream chunks)).tool_calls) := by
  constructor
  · intro hmem
    have h := (List.mem_filter.mp hmem).2
    simpa [GrokChatModel.keepToolCall] using h
  · intro _ hempty hmem
    have h := (List.mem_filter.mp hmem).2
    rcases hempty with he | he <;> simp [GrokChatModel.keepToolCall, he] at h

/-- Witness for C2 at a concrete stream: a fully-formed invocation survives
into the final message with non-empty id and name. -/
theorem c2_final_invocations_filtered_witness :
    (⟨"c1", "f", .obj [], none⟩ : ToolCallAcc).id ≠ "" ∧
    (⟨"c1", "f", .obj [], none⟩ : ToolCallAcc).name ≠ "" :=
  (c2_final_invocations_filtered
      ["data: \x7b\"choices\":[\x7b\"delta\":\x7b\"tool_calls\":[\x7b\"index\":0,\"id\":\"c1\",\"function\":\x7b\"name\":\"f\"\x7d\x7d]\x7d\x7d]\x7d\ndata: [DONE]\n"]
      ⟨"c1", "f", .obj [], none⟩).1 (by decide)

/-- C2 (counterexample to the claim as stated): the `GrokStreamingClient`
variant yields its final message with the accumulated invocations
unfiltered — a stream whose only fragment carries just an index ends, via
the `[DONE]` sentinel, in a final message that still contains the
empty-id, empty-name placeholder invocation. -/
theorem c2_counterexample :
    ∃ tc ∈ (GrokStreamingClient.p0FinalMessage
        ["data: \x7b\"choices\":[\x7b\"delta\":\x7b\"tool_calls\":[\x7b\"index\":0\x7d]\x7d\x7d]\x7d\ndata: [DONE]\n"]).tool_calls,
      tc.id = "" ∧ tc.name = "" := by decide

/-- C4 (amended): `convertMessageToGrokFormat` translates a tool-result
message to a user-role message with a single `image_url` content part when
its content is a `data:image/` URI, and otherwise to exactly
`{role: "tool", tool_call_id, content}` with the original id and content;
the inline translator of `GrokChatModel._generate` instead emits a
user-role message for non-image tool results (see the counterexample). -/
theorem c4_tool_result_translation (m : ChatMsg) (hm : m.kind = .tool) :
    (∀ s, m.content = .str s → strStartsWith s "data:image/" = true →
      convertMessageToGrokFormat m = { role := "user", content := imageContent s }) ∧
    (∀ s, m.content = .str s → strStartsWith s "data:image/" = false →
      convertMessageToGrokFormat m =
        { role := "tool", content := .str s, tool_call_id := m.tool_call_id }) ∧
    (∀ c, m.content = c → (∀ s, c ≠ .str s) →
      convertMessageToGrokFormat m =
        { role := "tool", content := c, tool_call_id := m.tool_call_id }) := by
  refine ⟨?_, ?_, ?_⟩
  · intro s hc himg
    simp [convertMessageToGrokFormat, hm, hc, himg]
  · intro s hc himg
    simp [convertMessageToGrokFormat, hm, hc, himg]
  · intro c hc hns
    cases c <;> simp [convertMessageToGrokFormat, hm, hc]
    exact absurd rfl (hns _)

/-- Witness for C4: an image tool result becomes a user message with one
image part; a plain-text tool result keeps the tool role, its id and its
content. -/
theorem c4_tool_result_translation_witness :
    convertMessageToGrokFormat ⟨.tool, .str "data:image/png;base64,AA", some "c9", none, []⟩ =
      { role := "user", content := imageContent "data:image/png;base64,AA" } ∧
    convertMessageToGrokFormat ⟨.tool, .str "done", some "c9", none, []⟩ =
      { role := "tool", content := .str "done", tool_call_id := some "c9" } :=
  ⟨(c4_tool_result_translation ⟨.tool, .str "data:image/png;base64,AA", some "c9", none, []⟩
      rfl).1 _ rfl (by decide),
    (c4_tool_result_translation ⟨.tool, .str "done", some "c9", none, []⟩ rfl).2.1 _ rfl
      (by decide)⟩

/-- C4 (counterexample to the claim as stated): the inline translator of
`GrokChatModel._generate` maps a non-image tool result to a **user**-role
message without any `tool_call_id`, not to `{role: "tool", tool_call_id,
content}`. -/
theorem c4_counterexample :
    GrokChatModel.convertMessage ⟨.tool, .str "done", some "call_9", none, []⟩ =
      { role := "user", content := .str "done" } ∧
    (GrokChatModel.convertMessage ⟨.tool, .str "done", some "call_9", none, []⟩).role ≠
      "tool" ∧
    (GrokChatModel.convertMessage ⟨.tool, .str "done", some "call_9", none, []⟩).tool_call_id =
      none := by decide

/-- C6 (amended): a tool-result message **tagged
`additional_kwargs.type === "computer_call_output"`** whose content is a
bare URL (not already a data URI) is resolved before the wire request —
fetched, base64-encoded and rewritten as a `data:image/png;base64,...`
URI — and a fetch failure propagates as a hard error; an *untagged*
tool-result with bare-URL content passes through unresolved (see the
counterexample). -/
theorem c6_url_resolution (fetchO : FetchOracle) (m : ChatMsg) (s : String)
    (hm : m.kind = .tool) (hk : m.kwargsType = some "computer_call_output")
    (hc : m.content = .str s) (hu : isUrl s = true)
    (_hnd : strStartsWith s "data:" = false) :
    (∀ bytes, fetchO s = some bytes →
      conditionallyUpdateToolMessageContent fetchO m =
        .ok { m with content := .str ("data:image/png;base64," ++ base64EncodeStr bytes) } ∧
      strStartsWith ("data:image/png;base64," ++ base64EncodeStr bytes) "data:image/" =
        true) ∧
    (fetchO s = none →
      conditionallyUpdateToolMessageContent fetchO m = .error "fetch failed") := by
  constructor
  · intro bytes hb
    constructor
    · simp [conditionallyUpdateToolMessageContent, hc, hm, hk, hu, imageUrlToBase64, hb]
    · have h1 : "data:image/".data <+: "data:image/png;base64,".data := by decide
      have h2 : "data:image/png;base64,".data <+:
          ("data:image/png;base64," ++ base64EncodeStr bytes).data := by
        rw [String.data_append]
        exact List.prefix_append _ _
      rw [strStartsWith, List.isPrefixOf_iff_prefix]
      exact h1.trans h2
  · intro hb
    simp [conditionallyUpdateToolMessageContent, hc, hm, hk, hu, imageUrlToBase64, hb]

/-- Witness for C6: a tagged screenshot tool result holding a concrete URL
is rewritten to the base64 data URI of the fetched bytes, and the same
message against a failing fetch is a hard error. -/
theorem c6_url_resolution_witness :
    conditionallyUpdateToolMessageContent
        (fun u => if u = "https://example.com/shot.png" then some [77, 97, 110] else none)
        ⟨.tool, .str "https://example.com/shot.png", some "c1",
          some "computer_call_output", []⟩ =
      .ok ⟨.tool, .str ("data:image/png;base64," ++ base64EncodeStr [77, 97, 110]),
        some "c1", some "computer_call_output", []⟩ ∧
    conditionallyUpdateToolMessageContent (fun _ => none)
        ⟨.tool, .str "https://example.com/shot.png", some "c1",
          some "computer_call_output", []⟩ =
      .error "fetch failed" :=
  ⟨((c6_url_resolution
        (fun u => if u = "https://example.com/shot.png" then some [77, 97, 110] else none)
        ⟨.tool, .str "https://example.com/shot.png", some "c1",
          some "computer_call_output", []⟩
        "https://example.com/shot.png" rfl rfl rfl (by decide) (by decide)).1
      [77, 97, 110] (by decide)).1,
    (c6_url_resolution (fun _ => none)
        ⟨.tool, .str "https://example.com/shot.png", some "c1",
          some "computer_call_output", []⟩
        "https://example.com/shot.png" rfl rfl rfl (by decide) (by decide)).2 rfl⟩

/-- C6 (counterexample to the claim as stated): a tool-result message whose
content is a bare external URL but which lacks the `computer_call_output`
tag is **not** resolved — no fetch happens — and the bare URL is forwarded
to the wire layer in the `{role: "tool"}` message. -/
theorem c6_counterexample :
    conditionallyUpdateToolMessageContent (fun _ => none)
        ⟨.tool, .str "https://example.com/shot.png", some "call_1", none, []⟩ =
      .ok ⟨.tool, .str "https://example.com/shot.png", some "call_1", none, []⟩ ∧
    isUrl "https://example.com/shot.png" = true ∧
    strStartsWith "https://example.com/shot.png" "data:" = false ∧
    convertMessageToGrokFormat
        ⟨.tool, .str "https://example.com/shot.png", some "call_1", none, []⟩ =
      { role := "tool", content := .str "https://example.com/shot.png",
        tool_call_id := some "call_1" } := by decide

/-- Helper: one failing tool-call decode fails the whole `tool_calls`
decode. -/
theorem decodeToolCalls_error {tcs : List Json} {tc : Json} (hmem : tc ∈ tcs)
    (herr : decodeToolCall tc = .error ()) : decodeToolCalls tcs = .error () := by
  induction tcs with
  | nil => cases hmem
  | cons hd tl ih =>
    rcases List.mem_cons.mp hmem with rfl | hmem'
    · simp [decodeToolCalls, herr]
    · cases hhd : decodeToolCall hd with
      | error e => cases e; simp [decodeToolCalls, hhd]
      | ok r => simp [decodeToolCalls, hhd, ih hmem']

/-- The concrete non-streaming body used against C3: its only tool call
carries the unparseable arguments string. -/
def c3Body : String :=
  "\x7b\"id\":\"r1\",\"model\":\"grok-2-vision-1212\",\"choices\":[\x7b\"message\":\x7b\"content\":\"hi\",\"tool_calls\":[\x7b\"id\":\"call_1\",\"function\":\x7b\"name\":\"computer_use_preview\",\"arguments\":\"\x7bbad\"\x7d\x7d]\x7d,\"finish_reason\":\"tool_calls\"\x7d],\"usage\":null\x7d"

/-- C3 (counterexample to the claim as stated): on a wire response whose
tool-call `arguments` string does not parse, the decoder does **not** yield
that invocation with empty-object arguments — the thrown parse error
escapes the decode and the whole response is replaced by the fallback
message, which carries no invocation with the original id. -/
theorem c3_counterexample :
    parseJson "\x7bbad" = none ∧
    GrokChatModel.generateNonStreaming (.ok c3Body) = GrokChatModel.fallbackMessage ∧
    (∀ tc ∈ (GrokChatModel.generateNonStreaming (.ok c3Body)).tool_calls,
      tc.id ≠ "call_1") := by decide

/-- C3 (amended): `arguments || "{}"` substitutes the empty object only for
an *absent or empty* arguments string; a non-empty string that does not
parse makes the tool-call decode throw, a throw anywhere in the array fails
the message decode, and the enclosing handler then returns the fallback
message in place of the response. -/
theorem c3_arguments_decode (tc : Json) :
    (∀ ffs s, getField tc "function" = some (.obj ffs) →
      jsStrVal (getField (.obj ffs) "arguments") = some s → parseJson s = none →
      decodeToolCall tc = .error ()) ∧
    (∀ ffs, getField tc "function" = some (.obj ffs) →
      jsStrVal (getField (.obj ffs) "arguments") = none →
      ∃ r, decodeToolCall tc = .ok r ∧ r.args = .obj []) ∧
    (∀ tcs, tc ∈ tcs → decodeToolCall tc = .error () →
      decodeToolCalls tcs = .error ()) ∧
    (∀ body data, parseJson body = some data → decodeMessage data = .error () →
      GrokChatModel.generateNonStreaming (.ok body) = GrokChatModel.fallbackMessage) := by
  refine ⟨?_, ?_, ?_, ?_⟩
  · intro ffs s hf ha hp
    simp [decodeToolCall, hf, ha, hp]
  · intro ffs hf ha
    have hempty : parseJson "\x7b\x7d" = some (.obj []) := by decide
    refine ⟨{ id := (match getField tc "id" with | some (.str s) => s | _ => ""),
              name := (match getField (Json.obj ffs) "name" with | some (.str s) => s | _ => ""),
              args := .obj [], argsString := none }, ?_, rfl⟩
    simp [decodeToolCall, hf, ha, hempty]
  · intro tcs hmem herr
    exact decodeToolCalls_error hmem herr
  · intro body data hb hd
    simp [GrokChatModel.generateNonStreaming, hb, hd]

/-- Witness for C3 (amended) at concrete inputs: an absent arguments string
decodes to the empty object, an unparseable one fails the decode. -/
theorem c3_arguments_decode_witness :
    (∃ r, decodeToolCall (.obj [("id", .str "c"), ("function", .obj [("name", .str "f")])]) =
      .ok r ∧ r.args = .obj []) ∧
    decodeToolCall
        (.obj [("id", .str "call_1"),
          ("function", .obj [("name", .str "computer_use_preview"),
            ("arguments", .str "\x7bbad")])]) =
      .error () :=
  ⟨(c3_arguments_decode
        (.obj [("id", .str "c"), ("function", .obj [("name", .str "f")])])).2.1
      [("name", .str "f")] rfl rfl,
    (c3_arguments_decode
        (.obj [("id", .str "call_1"),
          ("function", .obj [("name", .str "computer_use_preview"),
            ("arguments", .str "\x7bbad")])])).1
      [("name", .str "computer_use_preview"), ("arguments", .str "\x7bbad")]
      "\x7bbad" rfl rfl (by decide)⟩

/-- C7 (amended): with retention (`zdrEnabled`) off and the most recent
message a **computer-call-output** tool result, `callModelCustom` sends only
that single resolved message; in every other case it sends the entire
resolved history with the caller's prompt prefix — at most one system
message — prepended; a most recent tool result *without* the
computer-call-output tag takes the full-history branch (see the
counterexample). -/
theorem c7_history_selection (fetchO : FetchOracle) (cfg : CuaConfig)
    (msgs : List ChatMsg) (last : ChatMsg) (hlast : msgs.getLast? = some last) :
    (cfg.zdrEnabled.getD false = false → isComputerCallToolMessage last = true →
      callModelCustom fetchO cfg msgs =
        (conditionallyUpdateToolMessageContent fetchO last).map
          (fun fm => [convertMessageToGrokFormat fm])) ∧
    (cfg.zdrEnabled.getD false = true ∨ isComputerCallToolMessage last = false →
      callModelCustom fetchO cfg msgs =
        (resolveMessages fetchO msgs).map
          (fun fms => promptPrefixMsgs cfg.prompt ++ fms.map convertMessageToGrokFormat)) ∧
    (promptPrefixMsgs cfg.prompt).length ≤ 1 := by
  refine ⟨?_, ?_, ?_⟩
  · intro hz hcc
    simp only [callModelCustom, hlast, hz, hcc]
    cases conditionallyUpdateToolMessageContent fetchO last <;> simp [Except.map]
  · intro h
    have hcond : (isComputerCallToolMessage last && !cfg.zdrEnabled.getD false) = false := by
      rcases h with hz | hcc
      · simp [hz]
      · simp [hcc]
    simp only [callModelCustom, hlast, hcond, Bool.false_eq_true, if_false]
    cases resolveMessages fetchO msgs <;> simp [Except.map]
  · rcases cfg with ⟨z, p⟩
    rcases p with _ | ⟨s | pm⟩ <;> simp [promptPrefixMsgs]
    split <;> simp

/-- Witness for C7 (amended): with retention off and a tagged screenshot
output last, exactly the single resolved message is sent. -/
theorem c7_history_selection_witness :
    callModelCustom (fun _ => none) ⟨some false, none⟩
        [⟨.human, .str "hi", none, none, []⟩,
          ⟨.tool, .str "data:image/png;base64,AA", some "c1",
            some "computer_call_output", []⟩] =
      (conditionallyUpdateToolMessageContent (fun _ => none)
          ⟨.tool, .str "data:image/png;base64,AA", some "c1",
            some "computer_call_output", []⟩).map
        (fun fm => [convertMessageToGrokFormat fm]) :=
  (c7_history_selection (fun _ => none) ⟨some false, none⟩
      [⟨.human, .str "hi", none, none, []⟩,
        ⟨.tool, .str "data:image/png;base64,AA", some "c1",
          some "computer_call_output", []⟩]
      ⟨.tool, .str "data:image/png;base64,AA", some "c1",
        some "computer_call_output", []⟩
      (by decide)).1 rfl (by decide)

/-- C7 (counterexample to the claim as stated): retention is off and the
most recent message *is* a tool result — but an untagged one — and
`callModelCustom` sends the entire two-message history, not the single
message the claim requires. -/
theorem c7_counterexample :
    callModelCustom (fun _ => none) ⟨some false, none⟩
        [⟨.human, .str "hi", none, none, []⟩, ⟨.tool, .str "ok", some "c1", none, []⟩] =
      .ok [{ role := "user", content := .str "hi" },
        { role := "tool", content := .str "ok", tool_call_id := some "c1" }] ∧
    (⟨.tool, .str "ok", some "c1", none, []⟩ : ChatMsg).kind = .tool ∧
    (⟨(some false : Option Bool), none⟩ : CuaConfig).zdrEnabled.getD false = false := by
  decide

/-- The parsed arguments the `grok-patch.ts` streaming assembler ends up
with when a single tool call's argument text is delivered as the given
fragments (each fragment a `delta.tool_calls` event of index 0). -/
def streamedArgs (fragments : List String) : Json :=
  ((processToolCallDeltas
      (fragments.map fun a =>
        { index := some (.int 0), function := some (.obj [("arguments", .str a)]) })
      []).getD 0 initToolCall).args

/-- Modelled from the spec (the raw-argument-buffer algorithm of section
4.2.4, which the source deviates from): each fragment is **appended to the
raw buffer first**, then the whole buffer is parsed, and parsed keys are
merged on success. -/
def specArgsAssembler (fragments : List String) : Json :=
  (fragments.foldl
    (fun (st : String × Json) a =>
      let s := st.1 ++ a
      match parseJson s with
      | some v => (s, jsSpread st.2 v)
      | none => (s, st.2))
    ("", .obj [])).2

/-- C1 (refuted; the spec is the evident intent): the fragments
`"{\"a\":", "1", "}"` are a partition of the argument text `{"a":1}`, yet
the assembler produces `{}` for the split delivery and `{"a": 1}` for the
single-fragment delivery — the middle fragment parses as the standalone
JSON number `1`, is spread into `args` (a no-op) and is never appended to
the raw-argument buffer, which ends as the unparseable `{"a":}`.  The
algorithm the spec describes (append first, then parse the buffer) is
split-invariant on the same input. -/
theorem c1_split_invariance_codebug :
    strConcat ["\x7b\"a\":", "1", "\x7d"] = "\x7b\"a\":1\x7d" ∧
    streamedArgs ["\x7b\"a\":1\x7d"] = .obj [("a", .int 1)] ∧
    streamedArgs ["\x7b\"a\":", "1", "\x7d"] = .obj [] ∧
    Json.obj ([] : List (String × Json)) ≠ Json.obj [("a", .int 1)] ∧
    specArgsAssembler ["\x7b\"a\":", "1", "\x7d"] = .obj [("a", .int 1)] ∧
    specArgsAssembler ["\x7b\"a\":1\x7d"] = .obj [("a", .int 1)] := by decide

/-- The id a fragment leaves on its invocation (`if (toolCallDelta.id)`
overwrite). -/
def idStep (s : String) (td : ToolCallDelta) : String :=
  match jsStrVal td.id with
  | some t => t
  | none => s

/-- The name a fragment leaves on its invocation. -/
def nameStep (s : String) (td : ToolCallDelta) : String :=
  match td.function with
  | some f =>
    match jsStrVal (getField f "name") with
    | some t => t
    | none => s
  | none => s

/-- The id left on the invocation after all fragments (last truthy one
wins). -/
def finalId (ds : List ToolCallDelta) : String := ds.foldl idStep ""

/-- The name left on the invocation after all fragments. -/
def finalName (ds : List ToolCallDelta) : String := ds.foldl nameStep ""

theorem applyId_id (e : ToolCallAcc) (td : ToolCallDelta) :
    (applyId e td).id = idStep e.id td := by
  cases h : jsStrVal td.id with
  | none => simp [applyId, idStep, h]
  | some t => simp [applyId, idStep, h]

theorem applyName_id (e : ToolCallAcc) (td : ToolCallDelta) :
    (applyName e td).id = e.id := by
  unfold applyName
  repeat' split
  all_goals rfl

theorem applyArgs_id (e : ToolCallAcc) (td : ToolCallDelta) :
    (applyArgs e td).id = e.id := by
  unfold applyArgs
  repeat' split
  all_goals rfl

theorem updateEntry_id (e : ToolCallAcc) (td : ToolCallDelta) :
    (updateEntry e td).id = idStep e.id td := by
  unfold updateEntry
  rw [applyArgs_id, applyName_id, applyId_id]

theorem applyId_name (e : ToolCallAcc) (td : ToolCallDelta) :
    (applyId e td).name = e.name := by
  unfold applyId
  repeat' split
  all_goals rfl

theorem applyName_name (e : ToolCallAcc) (td : ToolCallDelta) :
    (applyName e td).name = nameStep e.name td := by
  cases htd : td.function with
  | none => simp [applyName, nameStep, htd]
  | some f =>
    cases hn : jsStrVal (getField f "name") with
    | none => simp [applyName, nameStep, htd, hn]
    | some t => simp [applyName, nameStep, htd, hn]

theorem applyArgs_name (e : ToolCallAcc) (td : ToolCallDelta) :
    (applyArgs e td).name = e.name := by
  unfold applyArgs
  repeat' split
  all_goals rfl

theorem updateEntry_name (e : ToolCallAcc) (td : ToolCallDelta) :
    (updateEntry e td).name = nameStep e.name td := by
  unfold updateEntry
  rw [applyArgs_name, applyName_name, applyId_name]

theorem foldl_updateEntry_id (ds : List ToolCallDelta) :
    ∀ e : ToolCallAcc, (ds.foldl updateEntry e).id = ds.foldl idStep e.id := by
  induction ds with
  | nil => intro e; rfl
  | cons td rest ih =>
    intro e
    rw [List.foldl_cons, List.foldl_cons, ih, updateEntry_id]

theorem foldl_updateEntry_name (ds : List ToolCallDelta) :
    ∀ e : ToolCallAcc, (ds.foldl updateEntry e).name = ds.foldl nameStep e.name := by
  induction ds with
  | nil => intro e; rfl
  | cons td rest ih =>
    intro e
    rw [List.foldl_cons, List.foldl_cons, ih, updateEntry_name]

/-- The accumulator shape maintained while every fragment targets index
`i`: `i` untouched placeholders followed by the live entry. -/
def padList (i : Nat) (e : ToolCallAcc) : List ToolCallAcc :=
  List.replicate i initToolCall ++ [e]

theorem padList_succ (i : Nat) (e : ToolCallAcc) :
    padList (i + 1) e = initToolCall :: padList i e := by
  simp [padList, List.replicate_succ]

theorem padList_length (i : Nat) (e : ToolCallAcc) : (padList i e).length = i + 1 := by
  simp [padList]

theorem padTo_padList (i : Nat) (e : ToolCallAcc) :
    padTo (padList i e) (i + 1) = padList i e := by
  simp [padTo, padList_length]

theorem replicate_succ_append (i : Nat) (x : ToolCallAcc) :
    List.replicate (i + 1) x = List.replicate i x ++ [x] := by
  induction i with
  | zero => rfl
  | succ n ih => simp [List.replicate_succ] at ih ⊢; exact ih

theorem padTo_nil (i : Nat) : padTo [] (i + 1) = padList i initToolCall := by
  simp [padTo, padList, replicate_succ_append]

theorem padList_getD (i : Nat) (e : ToolCallAcc) :
    (padList i e).getD i initToolCall = e := by
  induction i with
  | zero => rfl
  | succ n ih => rw [padList_succ, List.getD_cons_succ, ih]

theorem padList_set (i : Nat) (e e' : ToolCallAcc) :
    (padList i e).set i e' = padList i e' := by
  induction i with
  | zero => rfl
  | succ n ih =>
    rw [padList_succ, padList_succ, List.set_cons_succ, ih]

theorem processOneDelta_padList (i : Nat) (e : ToolCallAcc) (td : ToolCallDelta)
    (h : jsIndexVal td.index = some i) :
    processOneDelta (padList i e) td = .ok (padList i (updateEntry e td)) := by
  simp only [processOneDelta, h, padTo_padList, padList_getD, padList_set]

theorem processOneDelta_nil (i : Nat) (td : ToolCallDelta)
    (h : jsIndexVal td.index = some i) :
    processOneDelta [] td = .ok (padList i (updateEntry initToolCall td)) := by
  simp only [processOneDelta, h, padTo_nil, padList_getD, padList_set]

theorem processToolCallDeltas_padList (i : Nat) (ds : List ToolCallDelta)
    (hall : ∀ td ∈ ds, jsIndexVal td.index = some i) :
    ∀ e : ToolCallAcc,
      processToolCallDeltas ds (padList i e) = padList i (ds.foldl updateEntry e) := by
  induction ds with
  | nil => intro e; rfl
  | cons td rest ih =>
    intro e
    have h := hall td (List.mem_cons_self _ _)
    simp only [processToolCallDeltas, processOneDelta_padList i e td h, List.foldl_cons]
    exact ih (fun td' hm => hall td' (List.mem_cons_of_mem _ hm)) _

theorem processToolCallDeltas_from_nil (i : Nat) (ds : List ToolCallDelta)
    (hne : ds ≠ []) (hall : ∀ td ∈ ds, jsIndexVal td.index = some i) :
    processToolCallDeltas ds [] = padList i (ds.foldl updateEntry initToolCall) := by
  cases ds with
  | nil => exact absurd rfl hne
  | cons td rest =>
    have h := hall td (List.mem_cons_self _ _)
    simp only [processToolCallDeltas, processOneDelta_nil i td h, List.foldl_cons]
    exact processToolCallDeltas_padList i rest
      (fun td' hm => hall td' (List.mem_cons_of_mem _ hm)) _

theorem filter_padList (i : Nat) (tc : ToolCallAcc)
    (h : GrokChatModel.keepToolCall tc = true) :
    (padList i tc).filter GrokChatModel.keepToolCall = [tc] := by
  have hki : GrokChatModel.keepToolCall initToolCall = false := by decide
  induction i with
  | zero => simp [padList, List.filter, h]
  | succ n ih => rw [padList_succ, List.filter_cons_of_neg (by simp [hki]), ih]

/-- C8: for every non-empty fragment sequence all of whose fragments carry
the same effective index `i`, the assembler converges to a single live
invocation: the accumulator is exactly `i` untouched empty placeholders
followed by one entry at index `i` whose id and name are the last ones the
fragments supplied; once the supplied id and name are non-empty, the final
filter keeps exactly that one invocation — never two. -/
theorem c8_index_correlation (ds : List ToolCallDelta) (i : Nat) (hne : ds ≠ [])
    (hidx : ∀ td ∈ ds, jsIndexVal td.index = some i)
    (hid : finalId ds ≠ "") (hname : finalName ds ≠ "") :
    ∃ tc : ToolCallAcc,
      processToolCallDeltas ds [] = List.replicate i initToolCall ++ [tc] ∧
      tc.id = finalId ds ∧ tc.name = finalName ds ∧
      (processToolCallDeltas ds []).length = i + 1 ∧
      (processToolCallDeltas ds []).filter GrokChatModel.keepToolCall = [tc] := by
  have hmain := processToolCallDeltas_from_nil i ds hne hidx
  have hidv : (ds.foldl updateEntry initToolCall).id = finalId ds := by
    rw [foldl_updateEntry_id]; rfl
  have hnamev : (ds.foldl updateEntry initToolCall).name = finalName ds := by
    rw [foldl_updateEntry_name]; rfl
  have hkeep : GrokChatModel.keepToolCall (ds.foldl updateEntry initToolCall) = true := by
    simp [GrokChatModel.keepToolCall, hidv, hnamev, hid, hname]
  refine ⟨ds.foldl updateEntry initToolCall, hmain, hidv, hnamev, ?_, ?_⟩
  · rw [hmain, padList_length]
  · rw [hmain]
    exact filter_padList i _ hkeep

/-- Witness for C8 at the spec's concrete scenario: an index-only first
fragment, an id fragment, a name fragment and two argument halves (all at
index 0) converge to a single kept invocation with that id and name. -/
theorem c8_index_correlation_witness :
    ∃ tc : ToolCallAcc,
      processToolCallDeltas
          [⟨some (.int 0), none, none⟩,
            ⟨some (.int 0), some (.str "c1"), none⟩,
            ⟨some (.int 0), none, some (.obj [("name", .str "computer_use")])⟩,
            ⟨some (.int 0), none,
              some (.obj [("arguments", .str "\x7b\"action\":\x7b\"typ")])⟩,
            ⟨some (.int 0), none,
              some (.obj [("arguments", .str "e\":\"screenshot\"\x7d\x7d")])⟩] [] =
        List.replicate 0 initToolCall ++ [tc] ∧
      tc.id = finalId
          [⟨some (.int 0), none, none⟩,
            ⟨some (.int 0), some (.str "c1"), none⟩,
            ⟨some (.int 0), none, some (.obj [("name", .str "computer_use")])⟩,
            ⟨some (.int 0), none,
              some (.obj [("arguments", .str "\x7b\"action\":\x7b\"typ")])⟩,
            ⟨some (.int 0), none,
              some (.obj [("arguments", .str "e\":\"screenshot\"\x7d\x7d")])⟩] ∧
      tc.name = finalName
          [⟨some (.int 0), none, none⟩,
            ⟨some (.int 0), some (.str "c1"), none⟩,
            ⟨some (.int 0), none, some (.obj [("name", .str "computer_use")])⟩,
            ⟨some (.int 0), none,
              some (.obj [("arguments", .str "\x7b\"action\":\x7b\"typ")])⟩,
            ⟨some (.int 0), none,
              some (.obj [("arguments", .str "e\":\"screenshot\"\x7d\x7d")])⟩] ∧
      (processToolCallDeltas
          [⟨some (.int 0), none, none⟩,
            ⟨some (.int 0), some (.str "c1"), none⟩,
            ⟨some (.int 0), none, some (.obj [("name", .str "computer_use")])⟩,
            ⟨some (.int 0), none,
              some (.obj [("arguments", .str "\x7b\"action\":\x7b\"typ")])⟩,
            ⟨some (.int 0), none,
              some (.obj [("arguments", .str "e\":\"screenshot\"\x7d\x7d")])⟩] []).length =
        0 + 1 ∧
      (processToolCallDeltas
          [⟨some (.int 0), none, none⟩,
            ⟨some (.int 0), some (.str "c1"), none⟩,
            ⟨some (.int 0), none, some (.obj [("name", .str "computer_use")])⟩,
            ⟨some (.int 0), none,
              some (.obj [("arguments", .str "\x7b\"action\":\x7b\"typ")])⟩,
            ⟨some (.int 0), none,
              some (.obj [("arguments", .str "e\":\"screenshot\"\x7d\x7d")])⟩] []).filter
          GrokChatModel.keepToolCall =
        [tc] :=
  c8_index_correlation _ 0 (by decide) (by decide) (by decide) (by decide)
